import Mathlib

/-!
Verification of the distributed coordination primitives of
`python-redis-rate-limit`: the `Lock` class of
`redis_rate_limit/redis_lock.py`, and the `RateLimit` guard whose
behaviour is specified in the design document and exercised by
`tests/rate_limit_test.py`.

The store (Redis) is shared with other processes, so every store
operation performed by `Lock.acquire` may observe a key state resulting
from arbitrary interference.  We embed `acquire` as a function over a
trace of per-attempt environments: each `AttemptEnv` records the key's
state at the moment of each store operation of that attempt, and the
wall-clock readings taken during that attempt.  The loop recurses over
the trace; a trace too short for the loop yields the `outOfTrace`
marker, so theorems quantify over sufficiently long traces.
-/

/-- A raw value stored at the lock key (Redis returns it as a byte
string).  `num q` is the string form of a float timestamp, as written by
`Lock.acquire` itself via `setnx`/`getset`; it is nonempty and parses
back as that float.  `junk s` is a value written by some other client
that does not parse as a float (`float()` on it raises `ValueError`). -/
inductive RVal where
  | num (q : ℚ)
  | junk (s : String)
deriving DecidableEq, Repr

/-- Python truthiness of `current_value` in `if current_value and ...`:
`None` (absent key) and the empty byte string are falsy; a stored float
string is always nonempty, hence truthy. -/
def truthyVal : Option RVal → Bool
  | none => false
  | some (RVal.num _) => true
  | some (RVal.junk s) => !(s == "")

/-- Python `float(current_value)`: a `num` parses to its timestamp, a `junk`
value raises `ValueError` (modelled as `none`). -/
def parseFloat : Option RVal → Option ℚ
  | some (RVal.num q) => some q
  | _ => none

/-- Environment of one iteration of the `while timeout >= 0` loop in
`Lock.acquire`: the key's state as each store operation of the attempt
observes it (interference by other processes may change the key between
the operations), and the two `time.time()` readings of the iteration. -/
structure AttemptEnv where
  /-- Reading of `time.time()` at the top of the loop body, used to compute
  `expires = time.time() + self.expires + 1`. -/
  now1 : ℚ
  /-- Key state when `setnx` runs; `setnx` succeeds iff this is `none`. -/
  keyAtSetnx : Option RVal
  /-- Key state when `self.r.get(self.key)` runs. -/
  keyAtGet : Option RVal
  /-- Reading of `time.time()` in the staleness comparison `float(current_value) < time.time()`. -/
  now2 : ℚ
  /-- Key state when `getset` runs (its return value, the old value). -/
  keyAtGetset : Option RVal
deriving DecidableEq, Repr

/-- Result of one loop iteration of `Lock.acquire`. -/
inductive AttemptRes where
  /-- The iteration hit a `return` (either `setnx` succeeded or the
  stale-takeover `getset` comparison matched). -/
  | acquired
  /-- The iteration falls through to `timeout -= check_interval` and
  `time.sleep(check_interval)`. -/
  | retry
  /-- Python `float(current_value)` raised `ValueError`, which propagates out
  of `acquire`. -/
  | valueError
deriving DecidableEq, Repr

/-- Observable effect of one loop iteration: its result, the list of
values this iteration wrote to the key (via `setnx` or `getset`), and
the key's state immediately after the iteration's last store
operation. -/
structure AttemptOut where
  res : AttemptRes
  writes : List ℚ
  keyAfter : Option RVal
deriving DecidableEq, Repr

/-- One iteration of the loop body of `Lock.acquire`
(`redis_lock.py` lines 31-47), for a lock with staleness parameter
`expires`, in environment `e`:

    expires = time.time() + self.expires + 1
    if self.r.setnx(self.key, expires):
        return
    current_value = self.r.get(self.key)
    if current_value and float(current_value) < time.time() and \
       self.r.getset(self.key, expires) == current_value:
            return

`setnx` succeeds iff the key is absent at that instant and then writes
the candidate expiry; `getset` runs only if the first two conjuncts
hold (Python `and` short-circuits), always writes the candidate expiry,
and returns the old value, which is compared for equality with the
value `get` returned. -/
def attemptStep (expires : ℚ) (e : AttemptEnv) : AttemptOut :=
  let cand := e.now1 + expires + 1
  if e.keyAtSetnx = none then
    { res := AttemptRes.acquired, writes := [cand], keyAfter := some (RVal.num cand) }
  else
    let cur := e.keyAtGet
    if truthyVal cur then
      match parseFloat cur with
      | none => { res := AttemptRes.valueError, writes := [], keyAfter := cur }
      | some q =>
        if q < e.now2 then
          if e.keyAtGetset = cur then
            { res := AttemptRes.acquired, writes := [cand], keyAfter := some (RVal.num cand) }
          else
            { res := AttemptRes.retry, writes := [cand], keyAfter := some (RVal.num cand) }
        else
          { res := AttemptRes.retry, writes := [], keyAfter := cur }
    else
      { res := AttemptRes.retry, writes := [], keyAfter := cur }

/-- Outcome of a full run of `Lock.acquire`, with the number of loop
iterations performed (`attempts`), the number of `time.sleep`
calls (`sleeps`), and all values written to the key, in order. -/
inductive Outcome where
  | acquired (attempts sleeps : ℕ) (writes : List ℚ)
  | lockTimeout (attempts sleeps : ℕ) (writes : List ℚ)
  | valueError (attempts sleeps : ℕ) (writes : List ℚ)
  /-- The environment trace ran out while the loop would continue. -/
  | outOfTrace
deriving DecidableEq, Repr

/-- Whether the run returned successfully. -/
def Outcome.acquiredQ : Outcome → Bool
  | Outcome.acquired _ _ _ => true
  | _ => false

/-- Whether the run aborted with a `ValueError` from `float()`. -/
def Outcome.errorQ : Outcome → Bool
  | Outcome.valueError _ _ _ => true
  | _ => false

/-- All values the run wrote to the key. -/
def Outcome.writesOf : Outcome → List ℚ
  | Outcome.acquired _ _ w => w
  | Outcome.lockTimeout _ _ w => w
  | Outcome.valueError _ _ w => w
  | Outcome.outOfTrace => []

/-- The loop of `Lock.acquire` (`redis_lock.py` lines 30-49):

    timeout = self.timeout
    while timeout >= 0:
        <attemptStep>
        timeout -= self.check_interval
        time.sleep(self.check_interval)
    raise LockTimeout("Timeout whilst waiting for lock")

`timeout` here is the remaining budget; each non-returning iteration
decrements it by `check_interval` and sleeps `check_interval` before
the condition is re-checked, so the sleep after the final failed
iteration is counted. -/
def acquireLoop (expires interval : ℚ) : ℚ → List AttemptEnv → Outcome
  | timeout, [] =>
    if timeout < 0 then Outcome.lockTimeout 0 0 [] else Outcome.outOfTrace
  | timeout, e :: rest =>
    if timeout < 0 then Outcome.lockTimeout 0 0 []
    else
      let out := attemptStep expires e
      match out.res with
      | AttemptRes.acquired => Outcome.acquired 1 0 out.writes
      | AttemptRes.valueError => Outcome.valueError 1 0 out.writes
      | AttemptRes.retry =>
        match acquireLoop expires interval (timeout - interval) rest with
        | Outcome.acquired a s w => Outcome.acquired (a + 1) (s + 1) (out.writes ++ w)
        | Outcome.lockTimeout a s w => Outcome.lockTimeout (a + 1) (s + 1) (out.writes ++ w)
        | Outcome.valueError a s w => Outcome.valueError (a + 1) (s + 1) (out.writes ++ w)
        | Outcome.outOfTrace => Outcome.outOfTrace

/-- The `Lock` object (`redis_lock.py` lines 4-28) with its constructor
defaults `expires=60, timeout=10, check_interval=1`. -/
structure Lock where
  key : String
  expires : ℚ := 60
  timeout : ℚ := 10
  check_interval : ℚ := 1

/-- Run of `Lock.acquire` against an environment trace. -/
def Lock.acquire (l : Lock) (envs : List AttemptEnv) : Outcome :=
  acquireLoop l.expires l.check_interval l.timeout envs

/-- Effect of `Lock.release` (`redis_lock.py` line 55): `self.r.delete(self.key)`
removes the key unconditionally. -/
def Lock.releaseKey (_store : Option RVal) : Option RVal := none

/-- Effect of `Lock.__exit__` (`redis_lock.py` lines 57-61): call `release`, then
return `True` iff no exception type was passed in (Python suppresses
the body's exception iff `__exit__` returns a truthy value). -/
def lockExit (excType : Option String) (store : Option RVal) :
    Option RVal × Bool :=
  (Lock.releaseKey store, excType.isNone)

/-- The `with`-statement semantics around an already-acquired lock:
run the body, then call `__exit__` with the body's exception (if any);
the exception is suppressed iff `__exit__` returned `True`.  Returns
the key state after exit and the propagated result. -/
def withLock (store : Option RVal) (body : Except String Unit) :
    Option RVal × Except String Unit :=
  match body with
  | Except.ok a =>
    let r := lockExit none store
    (r.1, Except.ok a)
  | Except.error msg =>
    let r := lockExit (some msg) store
    (r.1, if r.2 then Except.ok () else Except.error msg)

/-- An attempt environment in which the key holds an unexpired claim by
another holder: the key is present at the `setnx`, and the value `get`
reads is a timestamp at or after the clock reading of the staleness
comparison. -/
def heldUnexpired (e : AttemptEnv) : Prop :=
  e.keyAtSetnx ≠ none ∧ ∃ q, e.keyAtGet = some (RVal.num q) ∧ e.now2 ≤ q

/-- An attempt environment whose `get` never observes a value that
fails to parse as a float, as is the case when the key is only ever
written by `Lock` instances (which store float timestamps). -/
def numericObs (e : AttemptEnv) : Prop :=
  ∀ s, e.keyAtGet ≠ some (RVal.junk s)

/-!
The `RateLimit` guard.  Its implementation file is not present in the
repository snapshot (only its tests under `tests/rate_limit_test.py`
are), so the guard is modelled from the specification's §4.2 state
machine.
-/

/-- Modelled from the spec: the `RateLimitGuard` data model of §3
(implementation file absent from the snapshot; only
`tests/rate_limit_test.py` is present).  Callbacks are abstracted as a
list of opaque identifiers. -/
structure Guard where
  resource : String
  client : String
  maxRequests : ℕ
  expire : ℚ
  blocking : Bool
  acquireTimeout : ℚ
  acquireCheckInterval : ℚ
  acquireAttempt : ℕ
  postEnterCallbacks : List ℕ
  inContext : Bool

/-- Result of one transition of the scope-entry state machine. -/
inductive EnterRes where
  | entered
  | gaveUp
  | tooManyRequests
  | quotaTimeout
  /-- Blocking over-quota with budget left: increment `acquireAttempt`,
  sleep `acquireCheckInterval`, and return to the Check state. -/
  | waitRetry
deriving DecidableEq, Repr

/-- Effect of one transition: its result, the updated guard, the usage
counter after the transition, whether the store was accessed, and the
callbacks fired (each exactly once) by this transition. -/
structure EnterOut where
  res : EnterRes
  g : Guard
  usage : ℕ
  storeAccessed : Bool
  fired : List ℕ

/-- Modelled from the spec: one transition of the §4.2 scope-entry
state machine (implementation file absent from the snapshot), taking
the current window's usage counter as read from the store.

Start: if `inContext` is already true, fail with `GaveUp` and no store
access.  Check: if `usage < maxRequests`, atomically increment the
counter, set `inContext`, reset `acquireAttempt`, fire every registered
post-enter callback once and clear the set.  Over quota and not
`blocking`: `TooManyRequests`.  Over quota, `blocking`, wait budget
(`acquireAttempt * acquireCheckInterval`) at `acquireTimeout`:
`QuotaTimeout`; otherwise record the retry and go back to Check. -/
def enterStep (g : Guard) (usage : ℕ) : EnterOut :=
  if g.inContext then
    { res := EnterRes.gaveUp, g := g, usage := usage
      storeAccessed := false, fired := [] }
  else if usage < g.maxRequests then
    { res := EnterRes.entered
      g := { g with inContext := true, acquireAttempt := 0
                    postEnterCallbacks := [] }
      usage := usage + 1, storeAccessed := true
      fired := g.postEnterCallbacks }
  else if g.blocking = false then
    { res := EnterRes.tooManyRequests, g := g, usage := usage
      storeAccessed := true, fired := [] }
  else if g.acquireTimeout ≤ g.acquireAttempt * g.acquireCheckInterval then
    { res := EnterRes.quotaTimeout, g := g, usage := usage
      storeAccessed := true, fired := [] }
  else
    { res := EnterRes.waitRetry
      g := { g with acquireAttempt := g.acquireAttempt + 1 }
      usage := usage, storeAccessed := true, fired := [] }

/-- Modelled from the spec: scope exit (§4.2 Exit) clears `inContext`;
the usage counter is never decremented. -/
def exitScope (g : Guard) : Guard :=
  { g with inContext := false }

/-- One full successful scope: enter, run the body, exit.  If the entry
does not succeed, the guard and counter are left as the failed entry
left them. -/
def scopeOnce (g : Guard) (usage : ℕ) : EnterRes × Guard × ℕ :=
  let o := enterStep g usage
  match o.res with
  | EnterRes.entered => (EnterRes.entered, exitScope o.g, o.usage)
  | r => (r, o.g, o.usage)

/-- Runs `n` successive scoped claims against the same window's counter. -/
def scopeIter : ℕ → Guard → ℕ → Guard × ℕ
  | 0, g, u => (g, u)
  | n + 1, g, u =>
    let r := scopeOnce g u
    scopeIter n r.2.1 r.2.2

/-- Attempt environment of a lock held by a live holder: the key holds
the timestamp 100 while the clock reads 0. -/
def eHeld : AttemptEnv :=
  { now1 := 0, keyAtSetnx := some (RVal.num 100)
    keyAtGet := some (RVal.num 100), now2 := 0
    keyAtGetset := some (RVal.num 100) }

/-- Attempt environment of a crashed holder: the key holds the
timestamp 10 while the clock reads 20, and nobody races the takeover
(`getset` returns the value `get` read). -/
def eStale : AttemptEnv :=
  { now1 := 50, keyAtSetnx := some (RVal.num 10)
    keyAtGet := some (RVal.num 10), now2 := 20
    keyAtGetset := some (RVal.num 10) }

/-- Attempt environment of a lost takeover race: the key holds the
expired timestamp 10, but by the time `getset` runs another party has
already replaced it with 33. -/
def eStaleLost : AttemptEnv :=
  { now1 := 50, keyAtSetnx := some (RVal.num 10)
    keyAtGet := some (RVal.num 10), now2 := 20
    keyAtGetset := some (RVal.num 33) }

/-- Attempt environment of a free lock: the key is absent. -/
def eFree : AttemptEnv :=
  { now1 := 7, keyAtSetnx := none, keyAtGet := none, now2 := 7
    keyAtGetset := none }

/-- Attempt environment in which a foreign client stored a non-numeric
value at the key. -/
def eJunk : AttemptEnv :=
  { now1 := 0, keyAtSetnx := some (RVal.junk "garbage")
    keyAtGet := some (RVal.junk "garbage"), now2 := 0
    keyAtGetset := some (RVal.junk "garbage") }

/-- The guard configuration of `tests/rate_limit_test.py`:
`RateLimit(resource='test', client='localhost', blocking=False,
max_requests=10)`. -/
def gDemo : Guard :=
  { resource := "test", client := "localhost", maxRequests := 10
    expire := 1, blocking := false, acquireTimeout := 10
    acquireCheckInterval := 1, acquireAttempt := 0
    postEnterCallbacks := [], inContext := false }

/-- The same guard with its scope already open. -/
def gOpen : Guard :=
  { gDemo with inContext := true }

/-! Helper lemmas shared by the claim theorems. -/

/-- A loop iteration against an unexpired foreign claim neither
returns nor writes: `setnx` fails, the value parses, and the staleness
comparison `float(current_value) < time.time()` is false. -/
theorem attemptStep_held (expires : ℚ) (e : AttemptEnv)
    (h : heldUnexpired e) :
    attemptStep expires e =
      { res := AttemptRes.retry, writes := [], keyAfter := e.keyAtGet } := by
  obtain ⟨hne, q, hget, hle⟩ := h
  simp [attemptStep, hne, hget, truthyVal, parseFloat, not_lt.mpr hle]

/-- With a negative remaining budget the loop raises `LockTimeout`
immediately, whatever the trace. -/
theorem acquireLoop_neg (expires interval timeout : ℚ)
    (envs : List AttemptEnv) (h : timeout < 0) :
    acquireLoop expires interval timeout envs = Outcome.lockTimeout 0 0 [] := by
  cases envs <;> simp [acquireLoop, h]

/-- A loop iteration whose `get` cannot observe an unparsable value
never raises `ValueError`. -/
theorem attemptStep_numeric (expires : ℚ) (e : AttemptEnv)
    (h : numericObs e) :
    (attemptStep expires e).res ≠ AttemptRes.valueError := by
  unfold attemptStep
  rcases hks : e.keyAtSetnx with _ | v
  · simp
  · rcases hkg : e.keyAtGet with _ | w
    · simp [truthyVal]
    · rcases w with q | s
      · simp only [truthyVal, parseFloat]
        by_cases h2 : q < e.now2
        · by_cases h3 : e.keyAtGetset = some (RVal.num q) <;>
            simp [h2, h3, hkg]
        · simp [h2, hkg]
      · exact absurd hkg (h s)

/-- C1: while the store key continuously holds an unexpired claim by
another holder (a present value whose timestamp is at or after the
clock at every check), `Lock.acquire` never returns successfully: every
`setnx` fails, the stale-takeover `getset` is never executed (no write
is performed), and the run either keeps polling (`outOfTrace`) or ends
in `LockTimeout`. -/
theorem acquire_unexpired_never_acquired (expires interval timeout : ℚ)
    (envs : List AttemptEnv) (h : ∀ e ∈ envs, heldUnexpired e) :
    (acquireLoop expires interval timeout envs).acquiredQ = false ∧
    (acquireLoop expires interval timeout envs).errorQ = false ∧
    (acquireLoop expires interval timeout envs).writesOf = [] := by
  revert h
  revert timeout
  induction envs with
  | nil =>
    intro timeout h
    by_cases ht : timeout < 0 <;>
      simp [acquireLoop, ht, Outcome.acquiredQ, Outcome.errorQ,
        Outcome.writesOf]
  | cons e rest ih =>
    intro timeout h
    by_cases ht : timeout < 0
    · simp [acquireLoop, ht, Outcome.acquiredQ, Outcome.errorQ,
        Outcome.writesOf]
    · have he := attemptStep_held expires e (h e (by simp))
      have hr := ih (timeout - interval)
        (fun x hx => h x (List.mem_cons_of_mem _ hx))
      simp only [acquireLoop, if_neg ht, he]
      rcases hrec : acquireLoop expires interval (timeout - interval) rest with
        a | a | a | _ <;>
        rw [hrec] at hr <;>
        simp_all [Outcome.acquiredQ, Outcome.errorQ, Outcome.writesOf]

/-- Witness for C1 at a concrete trace: timestamp 100 held, clock at
0, budget 3, polling interval 1. -/
theorem acquire_unexpired_never_acquired_witness :
    (acquireLoop 60 1 3 [eHeld]).acquiredQ = false ∧
    (acquireLoop 60 1 3 [eHeld]).errorQ = false ∧
    (acquireLoop 60 1 3 [eHeld]).writesOf = [] :=
  acquire_unexpired_never_acquired 60 1 3 [eHeld] (by
    intro e he
    have hc : e = eHeld := by simpa using he
    subst hc
    exact ⟨by simp [eHeld], 100, rfl, by norm_num [eHeld]⟩)

/-- C2: crash recovery.  If during one attempt `setnx` fails, the value
`get` reads is present and strictly less than the clock, and `getset`
returns exactly the value just read (nobody raced ahead), then
`acquire` returns successfully on that very attempt (one attempt, no
sleep), and the key is left holding the candidate expiry
`now + expires + 1` of that attempt. -/
theorem acquire_stale_takeover (expires interval timeout : ℚ)
    (e : AttemptEnv) (rest : List AttemptEnv) (q : ℚ)
    (ht : 0 ≤ timeout)
    (hsetnx : e.keyAtSetnx ≠ none)
    (hget : e.keyAtGet = some (RVal.num q))
    (hpast : q < e.now2)
    (hrace : e.keyAtGetset = e.keyAtGet) :
    acquireLoop expires interval timeout (e :: rest) =
      Outcome.acquired 1 0 [e.now1 + expires + 1] ∧
    (attemptStep expires e).keyAfter =
      some (RVal.num (e.now1 + expires + 1)) := by
  have he : attemptStep expires e =
      { res := AttemptRes.acquired, writes := [e.now1 + expires + 1]
        keyAfter := some (RVal.num (e.now1 + expires + 1)) } := by
    rw [hget] at hrace
    simp [attemptStep, hsetnx, hget, truthyVal, parseFloat, hpast, hrace]
  refine ⟨?_, by rw [he]⟩
  simp [acquireLoop, not_lt.mpr ht, he]

/-- Witness for C2: expired timestamp 10 read at clock 20, takeover
unraced, attempt clock 50, `expires = 60`, so the stored value is
`50 + 60 + 1 = 111`. -/
theorem acquire_stale_takeover_witness :
    acquireLoop 60 1 10 [eStale] = Outcome.acquired 1 0 [111] ∧
    (attemptStep 60 eStale).keyAfter = some (RVal.num 111) := by
  have h := acquire_stale_takeover 60 1 10 eStale [] 10
    (by norm_num) (by simp [eStale]) rfl (by norm_num [eStale]) rfl
  norm_num [eStale] at h
  exact h

/-- C6: when the key is absent at the attempt's `setnx`, the attempt
acquires immediately (one attempt, no sleep), and the value stored is
the candidate expiry `now + expires + 1` computed at the start of that
attempt. -/
theorem acquire_free_key (expires interval timeout : ℚ)
    (e : AttemptEnv) (rest : List AttemptEnv)
    (ht : 0 ≤ timeout)
    (hfree : e.keyAtSetnx = none) :
    acquireLoop expires interval timeout (e :: rest) =
      Outcome.acquired 1 0 [e.now1 + expires + 1] ∧
    (attemptStep expires e).keyAfter =
      some (RVal.num (e.now1 + expires + 1)) := by
  have he : attemptStep expires e =
      { res := AttemptRes.acquired, writes := [e.now1 + expires + 1]
        keyAfter := some (RVal.num (e.now1 + expires + 1)) } := by
    simp [attemptStep, hfree]
  refine ⟨?_, by rw [he]⟩
  simp [acquireLoop, not_lt.mpr ht, he]

/-- Witness for C6: key absent, attempt clock 7, `expires = 60`, so
the stored value is `7 + 60 + 1 = 68`. -/
theorem acquire_free_key_witness :
    acquireLoop 60 1 10 [eFree] = Outcome.acquired 1 0 [68] ∧
    (attemptStep 60 eFree).keyAfter = some (RVal.num 68) := by
  have h := acquire_free_key 60 1 10 eFree [] (by norm_num) rfl
  norm_num [eFree] at h
  exact h

/-- C9: a losing stale takeover still mutates the key.  If the value
read is expired but `getset` returns a different value (another party
raced in between), the attempt does not acquire the lock, yet the key
has already been overwritten with this caller's candidate expiry
`now + expires + 1`. -/
theorem acquire_lost_takeover_mutates (expires : ℚ) (e : AttemptEnv)
    (q : ℚ)
    (hsetnx : e.keyAtSetnx ≠ none)
    (hget : e.keyAtGet = some (RVal.num q))
    (hpast : q < e.now2)
    (hrace : e.keyAtGetset ≠ e.keyAtGet) :
    (attemptStep expires e).res = AttemptRes.retry ∧
    (attemptStep expires e).writes = [e.now1 + expires + 1] ∧
    (attemptStep expires e).keyAfter =
      some (RVal.num (e.now1 + expires + 1)) := by
  rw [hget] at hrace
  simp [attemptStep, hsetnx, hget, truthyVal, parseFloat, hpast, hrace]

/-- Witness for C9: expired timestamp 10 read at clock 20, but the
racing winner already wrote 33; the attempt retries yet has written
`50 + 60 + 1 = 111` over the winner's value. -/
theorem acquire_lost_takeover_mutates_witness :
    (attemptStep 60 eStaleLost).res = AttemptRes.retry ∧
    (attemptStep 60 eStaleLost).writes = [111] ∧
    (attemptStep 60 eStaleLost).keyAfter = some (RVal.num 111) := by
  have h := acquire_lost_takeover_mutates 60 eStaleLost 10
    (by simp [eStaleLost]) rfl (by norm_num [eStaleLost])
    (by simp [eStaleLost])
  norm_num [eStaleLost] at h
  exact h

/-- C10: `acquire` is total only when existing key values parse as
floats.  First part: if `setnx` fails and `get` returns a non-empty
value that does not parse as a float, the attempt aborts with the
`ValueError` raised by `float(current_value)` instead of retrying or
timing out.  Second part: under the precondition that the key is only
ever written by `Lock` instances (every observed value is numeric),
no run of the loop ever ends in that error. -/
theorem acquire_float_totality :
    (∀ (expires : ℚ) (e : AttemptEnv) (s : String),
        e.keyAtSetnx ≠ none → e.keyAtGet = some (RVal.junk s) → s ≠ "" →
        (attemptStep expires e).res = AttemptRes.valueError) ∧
    (∀ (expires interval timeout : ℚ) (envs : List AttemptEnv),
        (∀ e ∈ envs, numericObs e) →
        (acquireLoop expires interval timeout envs).errorQ = false) := by
  constructor
  · intro expires e s hsetnx hget hs
    simp [attemptStep, hsetnx, hget, truthyVal, parseFloat, hs]
  · intro expires interval timeout envs h
    revert h
    revert timeout
    induction envs with
    | nil =>
      intro timeout h
      by_cases ht : timeout < 0 <;> simp [acquireLoop, ht, Outcome.errorQ]
    | cons e rest ih =>
      intro timeout h
      by_cases ht : timeout < 0
      · simp [acquireLoop, ht, Outcome.errorQ]
      · have hnum := attemptStep_numeric expires e (h e (by simp))
        have hr := ih (timeout - interval)
          (fun x hx => h x (List.mem_cons_of_mem _ hx))
        simp only [acquireLoop, if_neg ht]
        rcases hres : (attemptStep expires e).res with _ | _ | _
        · simp [Outcome.errorQ]
        · rcases hrec : acquireLoop expires interval (timeout - interval)
            rest with a | a | a | _ <;>
            rw [hrec] at hr <;> simp_all [Outcome.errorQ]
        · exact absurd hres hnum

/-- Witness for C10: a foreign client stored the unparsable value
`"garbage"`, so the attempt aborts with `ValueError`; on a trace whose
observed values are all numeric, the loop never does. -/
theorem acquire_float_totality_witness :
    (attemptStep 60 eJunk).res = AttemptRes.valueError ∧
    (acquireLoop 60 1 3 [eHeld]).errorQ = false := by
  constructor
  · exact acquire_float_totality.1 60 eJunk "garbage"
      (by simp [eJunk]) rfl (by decide)
  · exact acquire_float_totality.2 60 1 3 [eHeld] (by
      intro e he
      have hc : e = eHeld := by simpa using he
      subst hc
      intro s
      simp [eHeld, numericObs])

/-- C7: scoped use of an acquired lock.  `__exit__` always calls
`release` (the key is deleted on both the normal and the exceptional
exit path), and because `__exit__` returns `False` when an exception
type is passed in, an exception raised in the body propagates to the
caller after release rather than being suppressed. -/
theorem lock_scope_releases_and_propagates (store : Option RVal)
    (body : Except String Unit) :
    (withLock store body).1 = Lock.releaseKey store ∧
    (withLock store body).2 = body := by
  cases body <;> simp [withLock, lockExit, Lock.releaseKey]

/-- C4: a `Lock` with `timeout=0` makes exactly one acquisition
attempt, but — contrary to the docstring "A value of 0 means we never
wait" — it sleeps `check_interval` once before raising `LockTimeout`,
because the loop body decrements the budget and sleeps before the
`while timeout >= 0` condition is re-checked.  Evaluated here against a
held, unexpired key: one attempt, one sleep. -/
theorem acquire_timeout_zero_sleeps_once :
    Lock.acquire { key := "lock", timeout := 0 } [eHeld, eHeld] =
      Outcome.lockTimeout 1 1 [] ∧ (1 : ℕ) ≠ 0 := by
  refine ⟨?_, by decide⟩
  norm_num [Lock.acquire, acquireLoop, attemptStep, eHeld, truthyVal,
    parseFloat, Option.some_ne_none]

/-- C5, claim as stated is false: with `timeout=10`, `check_interval=1`
and the lock continuously held with a far-future expiry, the loop polls
the store 11 times — `floor(timeout/checkInterval) + 1`, because the
`while timeout >= 0` condition also admits the iteration at budget 0 —
not `timeout / checkInterval = 10` times, and sleeps 11 seconds. -/
theorem acquire_poll_count_counterexample :
    acquireLoop 60 1 10 [eHeld, eHeld, eHeld, eHeld, eHeld, eHeld,
      eHeld, eHeld, eHeld, eHeld, eHeld, eHeld] =
      Outcome.lockTimeout 11 11 [] ∧ (11 : ℕ) ≠ 10 := by
  refine ⟨?_, by decide⟩
  norm_num [acquireLoop, attemptStep, eHeld, truthyVal, parseFloat,
    Option.some_ne_none]

/-- C5 as amended: when the key continuously holds an unexpired claim,
`acquire` with budget `timeout ≥ 0` and polling period
`check_interval > 0` performs exactly `floor(timeout/checkInterval) + 1`
polling attempts and as many sleeps before raising `LockTimeout`, the
budget being decremented by `checkInterval` after each failed attempt
(including the last); for `timeout=10`, `checkInterval=1` that is 11
attempts and roughly 11 seconds. -/
theorem acquire_poll_count (expires interval : ℚ) (hi : 0 < interval)
    (timeout : ℚ) (envs : List AttemptEnv)
    (ht : 0 ≤ timeout)
    (h : ∀ e ∈ envs, heldUnexpired e)
    (hlen : (⌊timeout / interval⌋).toNat + 1 ≤ envs.length) :
    acquireLoop expires interval timeout envs =
      Outcome.lockTimeout ((⌊timeout / interval⌋).toNat + 1)
        ((⌊timeout / interval⌋).toNat + 1) [] := by
  revert ht h hlen
  revert timeout
  induction envs with
  | nil =>
    intro timeout ht h hlen
    simp at hlen
  | cons e rest ih =>
    intro timeout ht h hlen
    have he := attemptStep_held expires e (h e (by simp))
    have hnn : ¬ timeout < 0 := not_lt.mpr ht
    simp only [acquireLoop, if_neg hnn, he]
    by_cases h2 : timeout - interval < 0
    · have hdiv0 : ⌊timeout / interval⌋ = 0 := by
        rw [Int.floor_eq_zero_iff]
        exact ⟨div_nonneg ht hi.le, (div_lt_one hi).mpr (by linarith)⟩
      rw [acquireLoop_neg expires interval (timeout - interval) rest h2]
      simp [hdiv0]
    · push_neg at h2
      have hfl : ⌊timeout / interval⌋ =
          ⌊(timeout - interval) / interval⌋ + 1 := by
        have hsub : (timeout - interval) / interval =
            timeout / interval - 1 := by
          rw [sub_div, div_self (ne_of_gt hi)]
        rw [hsub, Int.floor_sub_one]
        ring
      have hpos : 0 ≤ ⌊(timeout - interval) / interval⌋ :=
        Int.floor_nonneg.mpr (div_nonneg h2 hi.le)
      have hlen' : (⌊(timeout - interval) / interval⌋).toNat + 1 ≤
          rest.length := by
        simp only [List.length_cons] at hlen
        omega
      have hr := ih (timeout - interval) h2
        (fun x hx => h x (List.mem_cons_of_mem _ hx)) hlen'
      rw [hr]
      have hnat : (⌊timeout / interval⌋).toNat =
          (⌊(timeout - interval) / interval⌋).toNat + 1 := by omega
      simp [hnat]

/-- Witness for C5 (amended): the spec's scenario `timeout=10`,
`checkInterval=1`, lock held elsewhere with a far-future expiry. -/
theorem acquire_poll_count_witness :
    acquireLoop 60 1 10 (List.replicate 12 eHeld) =
      Outcome.lockTimeout ((⌊(10 : ℚ) / 1⌋).toNat + 1)
        ((⌊(10 : ℚ) / 1⌋).toNat + 1) [] :=
  acquire_poll_count 60 1 (by norm_num) 10 (List.replicate 12 eHeld)
    (by norm_num)
    (by
      intro e he
      have hc : e = eHeld := List.eq_of_mem_replicate he
      subst hc
      exact ⟨by simp [eHeld], 100, rfl, by norm_num [eHeld]⟩)
    (by norm_num
        decide)

/-- Under-quota scoped claims all succeed: `n` successive scopes from a
closed guard raise the counter by exactly `n` while preserving the
guard's closed state, quota ceiling and blocking mode. -/
theorem scopeIter_under_quota (n : ℕ) :
    ∀ (g : Guard) (u : ℕ), g.inContext = false →
      u + n ≤ g.maxRequests →
      (scopeIter n g u).2 = u + n ∧
      (scopeIter n g u).1.inContext = false ∧
      (scopeIter n g u).1.maxRequests = g.maxRequests ∧
      (scopeIter n g u).1.blocking = g.blocking := by
  induction n with
  | zero =>
    intro g u hic hle
    simp [scopeIter, hic]
  | succ n ih =>
    intro g u hic hle
    have hu : u < g.maxRequests := by omega
    have hstep : scopeOnce g u =
        (EnterRes.entered,
          { g with inContext := false, acquireAttempt := 0
                   postEnterCallbacks := [] },
          u + 1) := by
      simp [scopeOnce, enterStep, hic, hu, exitScope]
    have hr := ih { g with inContext := false, acquireAttempt := 0
                           postEnterCallbacks := [] } (u + 1)
      rfl (by simpa using by omega)
    simp only [scopeIter, hstep]
    refine ⟨?_, hr.2.1, hr.2.2.1, hr.2.2.2⟩
    rw [hr.1]
    omega

/-- C3: after `maxRequests` successful scoped claims in one window
starting from a fresh counter, the reported usage equals exactly
`maxRequests`, and the next scope entry with `blocking = false` fails
with `TooManyRequests` while leaving the counter at `maxRequests`. -/
theorem rate_limit_quota_exhaustion (g : Guard)
    (hic : g.inContext = false) (hb : g.blocking = false) :
    (scopeIter g.maxRequests g 0).2 = g.maxRequests ∧
    (enterStep (scopeIter g.maxRequests g 0).1
        (scopeIter g.maxRequests g 0).2).res = EnterRes.tooManyRequests ∧
    (enterStep (scopeIter g.maxRequests g 0).1
        (scopeIter g.maxRequests g 0).2).usage = g.maxRequests := by
  obtain ⟨hu, hic', hmax, hblock⟩ :=
    scopeIter_under_quota g.maxRequests g 0 hic (by omega)
  refine ⟨by simpa using hu, ?_, ?_⟩ <;>
    simp [enterStep, hic', hmax, hblock, hb, hu]

/-- Witness for C3: the guard of `tests/rate_limit_test.py`
(`max_requests=10`, `blocking=False`), starting from a reset
counter. -/
theorem rate_limit_quota_exhaustion_witness :
    (scopeIter gDemo.maxRequests gDemo 0).2 = gDemo.maxRequests ∧
    (enterStep (scopeIter gDemo.maxRequests gDemo 0).1
        (scopeIter gDemo.maxRequests gDemo 0).2).res =
      EnterRes.tooManyRequests ∧
    (enterStep (scopeIter gDemo.maxRequests gDemo 0).1
        (scopeIter gDemo.maxRequests gDemo 0).2).usage =
      gDemo.maxRequests :=
  rate_limit_quota_exhaustion gDemo rfl rfl

/-- C8: entering the scope of a guard whose `inContext` flag is already
set fails immediately with `GaveUp`, performs no store access, and
leaves both the guard and the usage counter unchanged. -/
theorem rate_limit_reentrancy (g : Guard) (usage : ℕ)
    (h : g.inContext = true) :
    (enterStep g usage).res = EnterRes.gaveUp ∧
    (enterStep g usage).usage = usage ∧
    (enterStep g usage).storeAccessed = false ∧
    (enterStep g usage).g = g := by
  simp [enterStep, h]

/-- Witness for C8: the test guard with its scope already open, at an
arbitrary concrete usage. -/
theorem rate_limit_reentrancy_witness :
    (enterStep gOpen 4).res = EnterRes.gaveUp ∧
    (enterStep gOpen 4).usage = 4 ∧
    (enterStep gOpen 4).storeAccessed = false ∧
    (enterStep gOpen 4).g = gOpen :=
  rate_limit_reentrancy gOpen 4 rfl
